import Mathlib

/-!
Verification of the `fastapi-simple-profiler` metrics store
(`fastapi_simple_profiler/profiler_data.py`) and its middleware
(`fastapi_simple_profiler/middleware.py`) against the natural-language
specification, via a shallow embedding of the Python source in Lean 4.

The store (`FastAPIProfiler`) keeps an in-memory list of per-request
profile entries (Python: a list of dicts) bounded by a configurable
retention limit, and exports them to CSV.  Python machine integers are
unbounded, so `Int`/`Nat` model them exactly; list slicing is modelled
by `List.drop`.  A method that can raise is embedded as a function
returning the post-call object state together with an optional
exception payload.  Reference aliasing (Python dicts are shared mutable
objects) is modelled with an explicit heap, and the thread-safety of the
store is modelled with a small-step interleaving semantics in which the
`threading.Lock` is part of the shared state.
-/

/-- One profiled request, i.e. the dict built by the middleware with keys
`Timestamp, RequestPath, HTTPMethod, StatusCode, TotalTimeMs, CPUTimeMs`.
`add_profile_data` accepts any dict, so every field is optional (a missing
key).  `StatusCode` is an int in the source; the two time fields are floats
that the store never computes with (the middleware rounds them to 3 decimals
before the dict is built), so they are carried as their serialized decimal
text, and likewise `Timestamp` is carried as its `strftime` text. -/
structure ProfileEntry where
  timestamp : Option String
  requestPath : Option String
  httpMethod : Option String
  statusCode : Option Int
  totalTimeMs : Option String
  cpuTimeMs : Option String
deriving DecidableEq, Repr

/-- The singleton store's mutable attributes: `profiled_requests_data`
(the list of recorded entries, insertion order) and `max_retained_requests`
(the retention capacity, default 1000). -/
structure FastAPIProfiler where
  profiled_requests_data : List ProfileEntry
  max_retained_requests : Nat
deriving DecidableEq, Repr

/-- Python negative-index slice `lst[-m:]`.  For `m ≥ 1` it is the last
`min m (length lst)` elements; the quirk `lst[-0:] = lst[0:] = lst` is kept
for faithfulness (the store never reaches capacity 0, see `configure`). -/
def lastSlice (m : Nat) (l : List α) : List α :=
  if m = 0 then l else l.drop (l.length - m)

/-- `FastAPIProfiler._prune_old_data`: when the list is longer than the
retention limit, keep only the last `max_retained_requests` entries
(`self.profiled_requests_data = self.profiled_requests_data[-self.max_retained_requests:]`). -/
def _prune_old_data (s : FastAPIProfiler) : FastAPIProfiler :=
  if s.profiled_requests_data.length > s.max_retained_requests then
    { s with profiled_requests_data :=
        lastSlice s.max_retained_requests s.profiled_requests_data }
  else s

/-- `FastAPIProfiler.configure(max_retained_requests)`: raises
`ValueError` (the spec's `InvalidCapacity`) when the argument is `< 1`,
leaving the object untouched (the `raise` is the first statement of the
body); otherwise stores the new limit and prunes immediately.  The result
is the object state after the call paired with the optional exception. -/
def configure (s : FastAPIProfiler) (max_retained_requests : Int) :
    FastAPIProfiler × Option String :=
  if max_retained_requests < 1 then
    (s, some "max_retained_requests must be at least 1.")
  else
    (_prune_old_data
      { s with max_retained_requests := max_retained_requests.toNat }, none)

/-- `FastAPIProfiler.add_profile_data(data)`: appends the entry, then
prunes.  (The `with self._lock` guard is modelled in the concurrent
semantics below; sequentially it is the identity.) -/
def add_profile_data (s : FastAPIProfiler) (data : ProfileEntry) :
    FastAPIProfiler :=
  _prune_old_data
    { s with profiled_requests_data := s.profiled_requests_data ++ [data] }

/-- `FastAPIProfiler.get_profile_data()`: returns `list(self.profiled_requests_data)`,
a fresh list with the same elements.  The value returned is the entry
sequence; the aliasing structure of the shallow copy is modelled
separately in the heap model below. -/
def get_profile_data (s : FastAPIProfiler) : List ProfileEntry :=
  s.profiled_requests_data

/-- `FastAPIProfiler.clear_data()`: rebinds the data attribute to a new
empty list. -/
def clear_data (s : FastAPIProfiler) : FastAPIProfiler :=
  { s with profiled_requests_data := [] }

/-- The empty store configured with retention capacity `c`. -/
def emptyStore (c : Nat) : FastAPIProfiler :=
  { profiled_requests_data := [], max_retained_requests := c }

/-- Recording a whole sequence of entries, oldest first. -/
def recordAll (s : FastAPIProfiler) (es : List ProfileEntry) : FastAPIProfiler :=
  es.foldl add_profile_data s

/-- The last `min c (length l)` elements of `l` (what pruning retains). -/
def keepLast (c : Nat) (l : List α) : List α :=
  l.drop (l.length - c)

/-- Sample entries used in the concrete witnesses below. -/
def eA : ProfileEntry :=
  ⟨some "2024-01-01 00:00:01", some "/a", some "GET", some 200,
   some "1.5", some "0.0"⟩

def eB : ProfileEntry :=
  ⟨some "2024-01-01 00:00:02", some "/b", some "POST", some 404,
   some "2.25", some "0.125"⟩

def eC : ProfileEntry :=
  ⟨some "2024-01-01 00:00:03", some "/c", some "GET", some 500,
   some "10.0", some "3.5"⟩

/- ### CSV export (`FastAPIProfiler.export_to_csv`) -/

/-- The `desired_columns` list of `export_to_csv`: fixed header names and
column order. -/
def desired_columns : List String :=
  ["Timestamp", "RequestPath", "HTTPMethod", "StatusCode",
   "TotalTimeMs", "CPUTimeMs"]

/-- Whether minimal CSV quoting must quote this value: it contains the
delimiter, the quote character, or a line break. -/
def needsQuote (s : String) : Bool :=
  s.data.any (fun ch => ch = ',' || ch = '"' || ch = '\n' || ch = '\r')

/-- Double every double quote (the CSV escape inside a quoted field). -/
def doubleQuotes : List Char → List Char
  | [] => []
  | ch :: rest =>
      if ch = '"' then '"' :: '"' :: doubleQuotes rest
      else ch :: doubleQuotes rest

/-- Standard CSV minimal quoting, as `pandas.DataFrame.to_csv` applies it:
a value containing a comma, a double quote, or a line break is wrapped in
double quotes with inner quotes doubled; other values are written as is. -/
def csvEscape (s : String) : String :=
  if needsQuote s then "\"" ++ String.mk (doubleQuotes s.data) ++ "\""
  else s

/-- One CSV cell: a missing dict key became `pd.NA` in the DataFrame and is
written as an empty cell; a present value is written (escaped). -/
def csvCell (v : Option String) : String :=
  match v with
  | none => ""
  | some s => csvEscape s

/-- One data row of the CSV: the six cells in `desired_columns` order,
comma-separated.  `StatusCode` ints are rendered in decimal; the other
fields are carried pre-serialized (see `ProfileEntry`). -/
def entryRow (e : ProfileEntry) : String :=
  String.intercalate ","
    [csvCell e.timestamp, csvCell e.requestPath, csvCell e.httpMethod,
     csvCell (e.statusCode.map toString), csvCell e.totalTimeMs,
     csvCell e.cpuTimeMs]

/-- `FastAPIProfiler.export_to_csv()`: takes a snapshot, builds a DataFrame
whose columns are forced (in order) to `desired_columns`, filling missing
keys with `pd.NA`, and writes it with `to_csv(index=False)`: the header
line, then one newline-terminated row per entry (none when the snapshot is
empty). -/
def export_to_csv (s : FastAPIProfiler) : String :=
  let data_to_export := get_profile_data s
  String.intercalate "," desired_columns ++ "\n"
    ++ String.join (data_to_export.map (fun e => entryRow e ++ "\n"))

/- ### Heap model for the shallow copy returned by `get_profile_data` -/

/-- Addresses of Python dict objects. -/
abbrev Addr := Nat

/-- The part of the Python heap relevant to snapshot aliasing: the entry
dict objects (addressed by index) and the store's internal list, which
holds references to them. -/
structure PyHeapWorld where
  heap : List ProfileEntry
  storeData : List Addr
deriving DecidableEq, Repr

/-- The list returned by `get_profile_data`: `list(self.profiled_requests_data)`
is a fresh list object containing the same references. -/
def snapshotRefs (w : PyHeapWorld) : List Addr :=
  w.storeData

/-- The entry values a snapshot dereferences to. -/
def snapshotEntries (w : PyHeapWorld) : List (Option ProfileEntry) :=
  w.storeData.map (fun a => w.heap[a]?)

/-- The caller mutates, in place, the entry dict at address `a` (e.g.
`snap[0]["RequestPath"] = ...` on its snapshot): only the heap changes;
the store's list of references is untouched. -/
def mutateEntryObject (w : PyHeapWorld) (a : Addr) (e : ProfileEntry) :
    PyHeapWorld :=
  { w with heap := w.heap.set a e }

/-- A caller holding its own snapshot list alongside the world. -/
structure SnapshotView where
  world : PyHeapWorld
  callerList : List Addr
deriving DecidableEq, Repr

/-- Taking a snapshot hands the caller a fresh list with the same
references. -/
def takeSnapshot (w : PyHeapWorld) : SnapshotView :=
  ⟨w, snapshotRefs w⟩

/-- The caller mutates its own list object (append, remove, replace,
reorder elements): since `list(...)` returned a fresh list, only the
caller's list changes. -/
def mutateCallerList (v : SnapshotView) (f : List Addr → List Addr) :
    SnapshotView :=
  { v with callerList := f v.callerList }

/- ### Singleton construction (`FastAPIProfiler.__new__`) -/

/-- The process state relevant to `FastAPIProfiler.__new__`: the allocated
profiler objects (addressed by index) and the class attribute
`FastAPIProfiler._instance`. -/
structure SingletonWorld where
  profilers : List FastAPIProfiler
  _instance : Option Addr
deriving DecidableEq, Repr

/-- `FastAPIProfiler.__new__` (double-checked singleton creation): when
`_instance` is `None`, allocate a fresh object, set its
`profiled_requests_data` to a new empty list and its
`max_retained_requests` to 1000, and store its reference in `_instance`;
otherwise return the stored reference unchanged.  The class defines no
`__init__`, so a later `FastAPIProfiler()` call runs no re-initialization
of the attributes. -/
def FastAPIProfiler_new (w : SingletonWorld) : SingletonWorld × Addr :=
  match w._instance with
  | some a => (w, a)
  | none =>
      let a := w.profilers.length
      ({ profilers := w.profilers ++ [emptyStore 1000], _instance := some a }, a)

/- ### Middleware dispatch (`ProfilerMiddleware.dispatch`) -/

/-- A Starlette response, reduced to the fields the middleware touches. -/
structure PyResponse where
  body : String
  status_code : Nat
deriving DecidableEq, Repr

/-- The tail of `ProfilerMiddleware.dispatch` (the try/except/finally
around `call_next`), as a function of the downstream handler's outcome and
the store.  Control flow, following Python semantics statement by
statement:

* `try`: on success, `response` is the handler's response.
* `except Exception as e`: on failure, `response` is set to the placeholder
  `Response("Internal Server Error", status_code=500)` and `raise e` makes
  `e` the pending exception.
* `finally`: the profile dict is built with `response.status_code` and
  passed to `add_profile_data` (exactly once on every path); then
  `return response` executes.  A `return` inside a `finally` block discards
  any pending exception (Python language rule), so on the failure path the
  dispatch returns the placeholder response normally instead of re-raising.

The timing/timestamp/path/method values are inputs here (they come from
clocks and the request object). -/
def dispatch (s : FastAPIProfiler) (ts path method total cpu : String)
    (call_next_result : Except String PyResponse) :
    FastAPIProfiler × Except String PyResponse :=
  match call_next_result with
  | .ok r =>
      (add_profile_data s
        ⟨some ts, some path, some method, some (Int.ofNat r.status_code),
         some total, some cpu⟩, .ok r)
  | .error _e =>
      let response : PyResponse := ⟨"Internal Server Error", 500⟩
      (add_profile_data s
        ⟨some ts, some path, some method,
         some (Int.ofNat response.status_code), some total, some cpu⟩,
       .ok response)

/- ### Per-request activation decision (`ProfilerMiddleware.dispatch`, head) -/

/-- Python `str.lower()` on the flag strings compared here (ASCII
case-folding, applied character by character). -/
def pyLower (s : String) : String :=
  String.mk (s.data.map Char.toLower)

/-- The `profile_active` decision of `dispatch`:
`is_enabled_by_env` is `os.getenv("FASTAPI_SIMPLE_PROFILER_ENABLED", "false").lower() == "true"`,
the query value is `request.query_params.get(self.profile_query_param, "").lower()`,
and
`profile_active = (enable_by_default and not is_disabled_by_query) or
(not enable_by_default and (is_enabled_by_query or is_enabled_by_env))`.
`none` models an absent environment variable / query parameter. -/
def profile_active (enable_by_default : Bool)
    (query_param_value : Option String) (env_value : Option String) : Bool :=
  let is_enabled_by_env := pyLower (env_value.getD "false") == "true"
  let qv := pyLower (query_param_value.getD "")
  let is_enabled_by_query := qv == "true"
  let is_disabled_by_query := qv == "false"
  (enable_by_default && !is_disabled_by_query) ||
    (!enable_by_default && (is_enabled_by_query || is_enabled_by_env))

/- ### Interleaving semantics for the store's thread-safety

Each store method is compiled to the sequence of its atomic effects on the
shared object (under CPython, an attribute read, an attribute write, a
`list.append`, and taking a slice are each atomic).  `add_profile_data`,
`get_profile_data` and `clear_data` wrap their bodies in
`with self._lock`; `configure` and `_prune_old_data` called from it do not
touch the lock. -/

/-- Atomic actions of the store methods. -/
inductive PyAction where
  | acquire
  | release
  | appendE (e : ProfileEntry)
  | pruneL
  | setCap (m : Nat)
  | readPrune
  | writeReg
deriving DecidableEq, Repr

/-- A thread: its remaining actions and one local register (the value a
`configure` thread computed for the pruned list, `none` when the prune
guard failed and no write will happen). -/
structure PyThread where
  prog : List PyAction
  reg : Option (List ProfileEntry)
deriving DecidableEq, Repr

/-- The shared store object plus the lock and the thread pool. -/
structure ConcState where
  entries : List ProfileEntry
  cap : Nat
  lockOwner : Option Nat
  threads : List PyThread
deriving DecidableEq, Repr

/-- `add_profile_data(e)`: acquire the lock, append, prune (the in-lock
prune is read-test-write on the list with no interference possible from
other lock holders, so it is one action here), release. -/
def recordProg (e : ProfileEntry) : List PyAction :=
  [.acquire, .appendE e, .pruneL, .release]

/-- `configure(m)` for `m ≥ 1` (validation passed): write the capacity
attribute, then `_prune_old_data` — read the list and compute the slice,
then write the list back — all WITHOUT touching the lock, exactly as in
the source. -/
def configureProg (m : Nat) : List PyAction :=
  [.setCap m, .readPrune, .writeReg]

/-- One interleaving step: thread `t` executes its next action.  `none`
when `t` has nothing to run or is blocked on the lock (such a schedule is
not a real interleaving at this point). -/
def step (c : ConcState) (t : Nat) : Option ConcState :=
  match c.threads[t]? with
  | none => none
  | some th =>
    match th.prog with
    | [] => none
    | a :: rest =>
      let ths := c.threads.set t { th with prog := rest }
      match a with
      | .acquire =>
          match c.lockOwner with
          | none => some { c with lockOwner := some t, threads := ths }
          | some _ => none
      | .release => some { c with lockOwner := none, threads := ths }
      | .appendE e => some { c with entries := c.entries ++ [e], threads := ths }
      | .pruneL =>
          some { c with
            entries :=
              if c.cap < c.entries.length then lastSlice c.cap c.entries
              else c.entries,
            threads := ths }
      | .setCap m => some { c with cap := m, threads := ths }
      | .readPrune =>
          some { c with
            threads := c.threads.set t
              { th with
                prog := rest,
                reg :=
                  if c.cap < c.entries.length then
                    some (lastSlice c.cap c.entries)
                  else none } }
      | .writeReg =>
          some { c with entries := th.reg.getD c.entries, threads := ths }

/-- Run a whole schedule (a list of thread ids). -/
def exec (sched : List Nat) (c : ConcState) : Option ConcState :=
  match sched with
  | [] => some c
  | t :: rest =>
      match step c t with
      | none => none
      | some c' => exec rest c'

/-- Two entries already stored, capacity 2; thread 0 runs `configure(1)`,
thread 1 runs `add_profile_data eC`. -/
def raceInit : ConcState :=
  { entries := [eA, eB], cap := 2, lockOwner := none,
    threads := [⟨configureProg 1, none⟩, ⟨recordProg eC, none⟩] }

/-- `K` record threads, one per entry of `es`. -/
def recordThreads (es : List ProfileEntry) : List PyThread :=
  es.map (fun e => ⟨recordProg e, none⟩)

/-- Empty store of capacity `c` about to be hit by one record call per
entry of `es`. -/
def initRecordState (es : List ProfileEntry) (c : Nat) : ConcState :=
  { entries := [], cap := c, lockOwner := none, threads := recordThreads es }

/-- The entry a record thread has yet to append: readable off its remaining
program. -/
def notYetAppended : List PyAction → Option ProfileEntry
  | .acquire :: .appendE e :: _ => some e
  | .appendE e :: _ => some e
  | _ => none

/-- All entries the threads have yet to append. -/
def pending (ths : List PyThread) : List ProfileEntry :=
  ths.filterMap (fun th => notYetAppended th.prog)

/-- Invariant for a pool of record threads over capacity `c`: the capacity
is untouched, every thread is part-way through some `recordProg`, and the
stored entries plus the pending ones are exactly the intended stream. -/
def RecInv (es : List ProfileEntry) (c : Nat) (st : ConcState) : Prop :=
  st.cap = c ∧
  (∀ th ∈ st.threads, ∃ e, th.prog <:+ recordProg e) ∧
  (st.entries ++ pending st.threads).Perm es

/-! ## Theorems -/

theorem lastSlice_of_pos {m : Nat} (h : 1 ≤ m) (l : List α) :
    lastSlice m l = l.drop (l.length - m) := by
  have hm : m ≠ 0 := by omega
  simp [lastSlice, hm]

theorem _prune_old_data_data_of_pos (s : FastAPIProfiler)
    (h : 1 ≤ s.max_retained_requests) :
    (_prune_old_data s).profiled_requests_data =
      s.profiled_requests_data.drop
        (s.profiled_requests_data.length - s.max_retained_requests) := by
  unfold _prune_old_data
  by_cases hc : s.profiled_requests_data.length > s.max_retained_requests
  · simp [hc, lastSlice_of_pos h]
  · have : s.profiled_requests_data.length - s.max_retained_requests = 0 := by omega
    simp [hc, this]

theorem _prune_old_data_cap (s : FastAPIProfiler) :
    (_prune_old_data s).max_retained_requests = s.max_retained_requests := by
  unfold _prune_old_data
  by_cases hc : s.profiled_requests_data.length > s.max_retained_requests <;>
    simp [hc]

theorem add_profile_data_cap (s : FastAPIProfiler) (e : ProfileEntry) :
    (add_profile_data s e).max_retained_requests = s.max_retained_requests := by
  unfold add_profile_data
  rw [_prune_old_data_cap]

/-- Dropping all but the last `c` elements, then appending one more and again
dropping all but the last `c`, is the same as appending first and dropping
once (for `c ≥ 1`). -/
theorem drop_last_append_one {c : Nat} (hc : 1 ≤ c) (l : List α) (e : α) :
    ((l.drop (l.length - c)) ++ [e]).drop
        (((l.drop (l.length - c)) ++ [e]).length - c) =
      (l ++ [e]).drop ((l ++ [e]).length - c) := by
  by_cases h : l.length ≤ c
  · have h0 : l.length - c = 0 := by omega
    simp [h0]
  · push_neg at h
    have hdlen : (l.drop (l.length - c)).length = c := by
      simp
      omega
    have h1 : ((l.drop (l.length - c)) ++ [e]).length - c = 1 := by
      simp [hdlen]
    have h2 : (l ++ [e]).length - c = (l.length - c) + 1 := by
      simp
      omega
    rw [h1, h2]
    rw [List.drop_append_of_le_length
      (show 1 ≤ (List.drop (l.length - c) l).length by omega)]
    rw [List.drop_append_of_le_length (show l.length - c + 1 ≤ l.length by omega)]
    rw [List.drop_drop, Nat.add_comm]

theorem keepLast_length (c : Nat) (l : List α) :
    (keepLast c l).length = min l.length c := by
  simp [keepLast]
  omega

theorem keepLast_of_le {c : Nat} {l : List α} (h : l.length ≤ c) :
    keepLast c l = l := by
  simp [keepLast, Nat.sub_eq_zero_of_le h]

theorem keepLast_append {c : Nat} (hc : 1 ≤ c) (es l : List α) :
    keepLast c (keepLast c l ++ es) = keepLast c (l ++ es) := by
  induction es generalizing l with
  | nil =>
      simp only [List.append_nil]
      exact keepLast_of_le (by rw [keepLast_length]; omega)
  | cons e es ih =>
      have h1 : keepLast c (keepLast c l ++ e :: es) =
          keepLast c ((keepLast c l ++ [e]) ++ es) := by
        simp
      have h2 : keepLast c ((keepLast c l ++ [e]) ++ es) =
          keepLast c (keepLast c (keepLast c l ++ [e]) ++ es) := (ih _).symm
      have h3 : keepLast c (keepLast c l ++ [e]) = keepLast c (l ++ [e]) :=
        drop_last_append_one hc l e
      rw [h1, h2, h3, ih (l ++ [e])]
      simp

theorem add_profile_data_data (s : FastAPIProfiler) (e : ProfileEntry)
    (h : 1 ≤ s.max_retained_requests) :
    (add_profile_data s e).profiled_requests_data =
      keepLast s.max_retained_requests (s.profiled_requests_data ++ [e]) := by
  unfold add_profile_data keepLast
  exact _prune_old_data_data_of_pos
    { profiled_requests_data := s.profiled_requests_data ++ [e],
      max_retained_requests := s.max_retained_requests } h

theorem recordAll_cap (s : FastAPIProfiler) (es : List ProfileEntry) :
    (recordAll s es).max_retained_requests = s.max_retained_requests := by
  induction es generalizing s with
  | nil => rfl
  | cons e es ih =>
      show (recordAll (add_profile_data s e) es).max_retained_requests = _
      rw [ih, add_profile_data_cap]

/-- Master lemma: starting from a store whose data fits its capacity
(`≥ 1`), recording a sequence leaves exactly the last `capacity` elements
of the total stream. -/
theorem recordAll_data (es : List ProfileEntry) (s : FastAPIProfiler)
    (h1 : 1 ≤ s.max_retained_requests)
    (h2 : s.profiled_requests_data.length ≤ s.max_retained_requests) :
    (recordAll s es).profiled_requests_data =
      keepLast s.max_retained_requests (s.profiled_requests_data ++ es) := by
  induction es generalizing s with
  | nil =>
      simp only [List.append_nil]
      exact (keepLast_of_le h2).symm
  | cons e es ih =>
      show (recordAll (add_profile_data s e) es).profiled_requests_data = _
      have hcap := add_profile_data_cap s e
      have hdata := add_profile_data_data s e h1
      have hlen : (add_profile_data s e).profiled_requests_data.length ≤
          (add_profile_data s e).max_retained_requests := by
        rw [hcap, hdata, keepLast_length]; omega
      rw [ih _ (by rw [hcap]; exact h1) hlen, hcap, hdata,
          keepLast_append h1, List.append_assoc]
      simp

/-- Claim C1: for every sequence of N `add_profile_data` calls into an empty
store configured with capacity `c ≥ 1`, the snapshot length afterwards is
`min N c`; since every intermediate state is the fold of a prefix, the entry
count never exceeds the capacity after any mutating operation. -/
theorem C1_capacity_bound (es : List ProfileEntry) (c : Nat) (hc : 1 ≤ c) :
    (get_profile_data (recordAll (emptyStore c) es)).length = min es.length c := by
  have h := recordAll_data es (emptyStore c) hc (by simp [emptyStore])
  simp only [get_profile_data, h, keepLast_length]
  simp [emptyStore]

theorem C1_capacity_bound_witness :
    (get_profile_data (recordAll (emptyStore 2) [eA, eB, eC])).length = min 3 2 :=
  C1_capacity_bound [eA, eB, eC] 2 (by decide)

/-- Claim C2: (a) recording a stream into an empty store of capacity `c ≥ 1`
retains exactly the `c` most recent entries, as the suffix of the stream in
original insertion order (FIFO eviction, no reordering, no deduplication);
(b) a successful `configure m` immediately prunes the current data to its
last `m` entries (e.g. shrinking the capacity below the current count). -/
theorem C2_fifo_eviction :
    (∀ (es : List ProfileEntry) (c : Nat), 1 ≤ c →
      get_profile_data (recordAll (emptyStore c) es) =
        es.drop (es.length - c)) ∧
    (∀ (s : FastAPIProfiler) (m : Int), 1 ≤ m →
      ((configure s m).1).profiled_requests_data =
        s.profiled_requests_data.drop
          (s.profiled_requests_data.length - m.toNat)) := by
  constructor
  · intro es c hc
    have h := recordAll_data es (emptyStore c) hc (by simp [emptyStore])
    simp only [get_profile_data, h, keepLast]
    simp [emptyStore]
  · intro s m hm
    have hnot : ¬ m < 1 := by omega
    have hm1 : 1 ≤ m.toNat := by omega
    simp only [configure, hnot, if_false]
    exact _prune_old_data_data_of_pos _ hm1

theorem C2_fifo_eviction_witness :
    get_profile_data (recordAll (emptyStore 2) [eA, eB, eC]) = [eB, eC] ∧
    ((configure ⟨[eA, eB, eC], 3⟩ 1).1).profiled_requests_data = [eC] := by
  constructor
  · have h := C2_fifo_eviction.1 [eA, eB, eC] 2 (by decide)
    simpa using h
  · have h := C2_fifo_eviction.2 ⟨[eA, eB, eC], 3⟩ 1 (by decide)
    simpa using h

/-- Claim C3: `configure` fails exactly when its argument is `< 1`, raising
`ValueError` ("InvalidCapacity") while leaving the object — capacity and
stored entries alike — completely unchanged; for every argument `≥ 1` it
succeeds.  The other operations (`add_profile_data`, `get_profile_data`,
`clear_data`, `export_to_csv`) are embedded as total functions: their Python
bodies contain no `raise`, so they never fail on valid inputs. -/
theorem C3_configure_only_failure :
    (∀ (s : FastAPIProfiler) (m : Int), m < 1 →
      configure s m = (s, some "max_retained_requests must be at least 1.")) ∧
    (∀ (s : FastAPIProfiler) (m : Int), 1 ≤ m → (configure s m).2 = none) := by
  constructor
  · intro s m hm
    simp [configure, hm]
  · intro s m hm
    have hnot : ¬ m < 1 := by omega
    simp [configure, hnot]

theorem C3_configure_only_failure_witness :
    configure (emptyStore 5) 0 =
      (emptyStore 5, some "max_retained_requests must be at least 1.") ∧
    configure ⟨[eA], 5⟩ (-1) =
      (⟨[eA], 5⟩, some "max_retained_requests must be at least 1.") ∧
    (configure (emptyStore 5) 3).2 = none :=
  ⟨C3_configure_only_failure.1 (emptyStore 5) 0 (by decide),
   C3_configure_only_failure.1 ⟨[eA], 5⟩ (-1) (by decide),
   C3_configure_only_failure.2 (emptyStore 5) 3 (by decide)⟩

theorem intercalate_six_cells (a b c d e f : String) :
    String.intercalate "," [a, b, c, d, e, f] =
      a ++ "," ++ b ++ "," ++ c ++ "," ++ d ++ "," ++ e ++ "," ++ f :=
  rfl

/-- Claim C4: `export_to_csv` emits the fixed header
`Timestamp,RequestPath,HTTPMethod,StatusCode,TotalTimeMs,CPUTimeMs`; for an
empty store the output is exactly that one header line and no data rows;
for a store holding one entry, the output is the header line followed by
exactly one newline-terminated row whose six cells, in column order, are
the entry's (pre-formatted) field values, a missing field yielding an
empty cell so all six columns are present. -/
theorem C4_csv_export :
    (∀ s : FastAPIProfiler, s.profiled_requests_data = [] →
      export_to_csv s =
        "Timestamp,RequestPath,HTTPMethod,StatusCode,TotalTimeMs,CPUTimeMs\n") ∧
    (∀ (s : FastAPIProfiler) (e : ProfileEntry), s.profiled_requests_data = [e] →
      export_to_csv s =
        "Timestamp,RequestPath,HTTPMethod,StatusCode,TotalTimeMs,CPUTimeMs\n"
          ++ csvCell e.timestamp ++ "," ++ csvCell e.requestPath ++ ","
          ++ csvCell e.httpMethod ++ "," ++ csvCell (e.statusCode.map toString)
          ++ "," ++ csvCell e.totalTimeMs ++ "," ++ csvCell e.cpuTimeMs
          ++ "\n") := by
  constructor
  · intro s h
    simp only [export_to_csv, get_profile_data, h]
    rfl
  · intro s e h
    simp only [export_to_csv, get_profile_data, h, List.map_cons, List.map_nil,
      String.join, List.foldl, entryRow, intercalate_six_cells]
    simp [String.append_assoc]
    rfl

theorem C4_csv_export_witness :
    export_to_csv (emptyStore 5) =
      "Timestamp,RequestPath,HTTPMethod,StatusCode,TotalTimeMs,CPUTimeMs\n" ∧
    export_to_csv ⟨[eB], 5⟩ =
      "Timestamp,RequestPath,HTTPMethod,StatusCode,TotalTimeMs,CPUTimeMs\n"
        ++ "2024-01-01 00:00:02,/b,POST,404,2.25,0.125\n" ∧
    export_to_csv ⟨[⟨some "2024-01-01 00:00:04", some "/m", some "GET", none,
        some "1.0", some "0.0"⟩], 5⟩ =
      "Timestamp,RequestPath,HTTPMethod,StatusCode,TotalTimeMs,CPUTimeMs\n"
        ++ "2024-01-01 00:00:04,/m,GET,,1.0,0.0\n" := by
  refine ⟨C4_csv_export.1 (emptyStore 5) rfl, ?_, ?_⟩
  · rw [C4_csv_export.2 ⟨[eB], 5⟩ eB rfl]
    decide
  · rw [C4_csv_export.2 _ _ rfl]
    decide

/-- Claim C7: `clear_data` empties the entry sequence, leaves the capacity
unchanged, and is idempotent: a second `clear_data` is a no-op producing the
same (empty) snapshot and the same store state. -/
theorem C7_clear_idempotent (s : FastAPIProfiler) :
    get_profile_data (clear_data s) = [] ∧
    (clear_data s).max_retained_requests = s.max_retained_requests ∧
    clear_data (clear_data s) = clear_data s ∧
    get_profile_data (clear_data (clear_data s)) = [] :=
  ⟨rfl, rfl, rfl, rfl⟩

/-- Claim C8 (the code at the claim's failing input): when the downstream
handler raises, `dispatch` still calls `add_profile_data` exactly once,
with the sentinel status code 500 — but the original exception does NOT
propagate: the `return response` inside the `finally` block discards the
re-raised exception (Python semantics), so the middleware returns the
placeholder 500 response normally, contradicting the claim's (and the
code's own comment's) "re-raise the original exception". -/
theorem C8_record_on_failure_but_exception_swallowed
    (s : FastAPIProfiler) (ts path method total cpu : String) (e : String) :
    dispatch s ts path method total cpu (.error e) =
      (add_profile_data s
        ⟨some ts, some path, some method, some 500, some total, some cpu⟩,
       .ok ⟨"Internal Server Error", 500⟩) :=
  rfl

/-- Claim C10: `FastAPIProfiler()` always returns the one stored instance.
The first construction allocates it with an empty entry list and capacity
1000 and publishes its reference in `_instance`; every later construction
returns that same reference and leaves the world — the stored instance's
state included — completely unchanged (the class has no `__init__`, so
nothing is re-initialized). -/
theorem C10_singleton :
    (∀ (w : SingletonWorld) (a : Addr), w._instance = some a →
      FastAPIProfiler_new w = (w, a)) ∧
    (∀ w : SingletonWorld, w._instance = none →
      (FastAPIProfiler_new w).1._instance = some (FastAPIProfiler_new w).2 ∧
      (FastAPIProfiler_new w).1.profilers[(FastAPIProfiler_new w).2]? =
        some (emptyStore 1000) ∧
      FastAPIProfiler_new (FastAPIProfiler_new w).1 =
        ((FastAPIProfiler_new w).1, (FastAPIProfiler_new w).2)) := by
  constructor
  · intro w a h
    simp [FastAPIProfiler_new, h]
  · intro w h
    simp only [FastAPIProfiler_new, h]
    refine ⟨by simp, ?_, by simp⟩
    exact List.getElem?_concat_length w.profilers (emptyStore 1000)

theorem C10_singleton_witness :
    FastAPIProfiler_new ⟨[emptyStore 1000], some 0⟩ =
      (⟨[emptyStore 1000], some 0⟩, 0) ∧
    (FastAPIProfiler_new ⟨[], none⟩).1._instance =
      some (FastAPIProfiler_new ⟨[], none⟩).2 ∧
    (FastAPIProfiler_new ⟨[], none⟩).1.profilers[(FastAPIProfiler_new ⟨[], none⟩).2]? =
      some (emptyStore 1000) ∧
    FastAPIProfiler_new (FastAPIProfiler_new ⟨[], none⟩).1 =
      ((FastAPIProfiler_new ⟨[], none⟩).1, (FastAPIProfiler_new ⟨[], none⟩).2) :=
  ⟨C10_singleton.1 ⟨[emptyStore 1000], some 0⟩ 0 rfl,
   C10_singleton.2 ⟨[], none⟩ rfl⟩

/-- Claim C6 is false on the code: `get_profile_data` returns
`list(self.profiled_requests_data)`, a SHALLOW copy, so the entry dicts in
the snapshot are the store's own objects.  Concretely: with one stored
entry `eA` at address 0, the caller mutating its snapshot's entry object in
place (overwriting it with `eB`) changes what every subsequent snapshot
dereferences to. -/
theorem C6_snapshot_deep_copy_counterexample :
    (0 : Addr) ∈ snapshotRefs ⟨[eA], [0]⟩ ∧
    snapshotEntries (mutateEntryObject ⟨[eA], [0]⟩ 0 eB) ≠
      snapshotEntries ⟨[eA], [0]⟩ := by
  decide

/-- Claim C6 as amended: the snapshot is a fresh list object, so mutations
of the returned list itself (append, remove, replace, reorder) leave the
store — and hence every subsequent snapshot — unchanged; but the entry
objects in it are shared with the store, so an in-place mutation of the
entry at an address held by the store is visible to subsequent snapshots. -/
theorem C6_snapshot_shallow_copy :
    (∀ (w : PyHeapWorld) (f : List Addr → List Addr),
      (mutateCallerList (takeSnapshot w) f).world = w ∧
      snapshotEntries (mutateCallerList (takeSnapshot w) f).world =
        snapshotEntries w) ∧
    (∀ (w : PyHeapWorld) (a : Addr) (e : ProfileEntry),
      a ∈ snapshotRefs w → a < w.heap.length →
      snapshotEntries (mutateEntryObject w a e) =
        w.storeData.map (fun b => if b = a then some e else w.heap[b]?)) := by
  constructor
  · intro w f
    exact ⟨rfl, rfl⟩
  · intro w a e _hmem hlt
    simp only [snapshotEntries, mutateEntryObject]
    refine List.map_congr_left ?_
    intro b _hb
    by_cases hba : b = a
    · subst hba
      simp [List.getElem?_set_self hlt]
    · simp [List.getElem?_set_ne (fun h => hba h.symm), hba]

theorem C6_snapshot_shallow_copy_witness :
    ((mutateCallerList (takeSnapshot ⟨[eA], [0]⟩) (fun _ => [])).world
        = ⟨[eA], [0]⟩ ∧
      snapshotEntries (mutateCallerList (takeSnapshot ⟨[eA], [0]⟩)
        (fun _ => [])).world = snapshotEntries ⟨[eA], [0]⟩) ∧
    snapshotEntries (mutateEntryObject ⟨[eA], [0]⟩ 0 eB) =
      ([0] : List Addr).map
        (fun b => if b = (0 : Addr) then some eB else ([eA] : List ProfileEntry)[b]?) :=
  ⟨C6_snapshot_shallow_copy.1 ⟨[eA], [0]⟩ (fun _ => []),
   C6_snapshot_shallow_copy.2 ⟨[eA], [0]⟩ 0 eB (by decide) (by decide)⟩

/-- Claim C9: the per-request activation decision satisfies the stated
precedence: with the default enabled, an explicit per-request
`?profile=false` makes profiling inactive (whatever the environment flag
says); with the default disabled, an explicit `?profile=true` makes it
active, and so does an enabled environment flag (whatever the query
parameter says). -/
theorem C9_activation_precedence :
    (∀ env : Option String, profile_active true (some "false") env = false) ∧
    (∀ env : Option String, profile_active false (some "true") env = true) ∧
    (∀ q : Option String, profile_active false q (some "true") = true) := by
  have hff : (pyLower "false" == "false") = true := by decide
  have htt : (pyLower "true" == "true") = true := by decide
  have htf : (pyLower "true" == "false") = false := by decide
  refine ⟨fun env => ?_, fun env => ?_, fun q => ?_⟩
  · simp [profile_active, hff]
  · simp [profile_active, htt, htf]
  · simp [profile_active, htt]

/-- Claim C5 is false on the code: `configure` mutates the capacity and
runs `_prune_old_data` WITHOUT acquiring `self._lock`, so it is not
mutually exclusive with the locked operations and the store does not
behave as if guarded by a single exclusive lock.  Concretely: from two
stored entries and capacity 2, running `configure(1)` (thread 0)
concurrently with `add_profile_data eC` (thread 1) admits the interleaving
`[0, 0, 1, 1, 1, 1, 0]` — configure reads the list and computes its pruned
slice, the whole locked record call runs, then configure writes the stale
slice back — which ends with the store holding `[eB]`: the freshly recorded
`eC` is lost and the evicted `eB` resurrected.  Both serial orders of the
two calls end with `[eC]`, so the racy outcome matches no serial
execution. -/
theorem C5_lock_counterexample :
    (exec [0, 0, 1, 1, 1, 1, 0] raceInit).map ConcState.entries = some [eB] ∧
    (exec [0, 0, 0, 1, 1, 1, 1] raceInit).map ConcState.entries = some [eC] ∧
    (exec [1, 1, 1, 1, 0, 0, 0] raceInit).map ConcState.entries = some [eC] ∧
    ([eB] : List ProfileEntry) ≠ [eC] := by
  decide

theorem suffix_recordProg_cases {l : List PyAction} {e : ProfileEntry}
    (h : l <:+ recordProg e) :
    l = recordProg e ∨ l = [.appendE e, .pruneL, .release] ∨
    l = [.pruneL, .release] ∨ l = [.release] ∨ l = [] := by
  simp only [recordProg, List.suffix_cons_iff, List.suffix_nil] at h
  simp only [recordProg]
  tauto

theorem pending_set_congr {ths : List PyThread} {t : Nat} {th th' : PyThread}
    (ht : ths[t]? = some th)
    (heq : notYetAppended th'.prog = notYetAppended th.prog) :
    pending (ths.set t th') = pending ths := by
  induction ths generalizing t with
  | nil => simp at ht
  | cons x xs ih =>
      cases t with
      | zero =>
          have hx : x = th := by simpa using ht
          subst hx
          simp [pending, List.filterMap_cons, heq]
      | succ n =>
          have ht' : xs[n]? = some th := by simpa using ht
          have htail : pending (xs.set n th') = pending xs := ih ht'
          simp only [pending, List.set] at htail ⊢
          cases hfx : notYetAppended x.prog <;>
            simp [List.filterMap_cons, hfx, htail]

theorem pending_set_perm_remove {ths : List PyThread} {t : Nat}
    {th th' : PyThread} {e : ProfileEntry}
    (ht : ths[t]? = some th)
    (hold : notYetAppended th.prog = some e)
    (hnew : notYetAppended th'.prog = none) :
    (e :: pending (ths.set t th')).Perm (pending ths) := by
  induction ths generalizing t with
  | nil => simp at ht
  | cons x xs ih =>
      cases t with
      | zero =>
          have hx : x = th := by simpa using ht
          subst hx
          simp [pending, List.filterMap_cons, hold, hnew]
      | succ n =>
          have ht' : xs[n]? = some th := by simpa using ht
          have htail := ih ht'
          cases hfx : notYetAppended x.prog with
          | none =>
              simpa [pending, List.filterMap_cons, hfx] using htail
          | some y =>
              simp only [pending, List.set, List.filterMap_cons, hfx]
              refine (List.Perm.swap y e _).trans ?_
              exact htail.cons y

theorem step_preserves_RecInv {es : List ProfileEntry} {c : Nat}
    (hK : es.length ≤ c) {st st' : ConcState} {t : Nat}
    (hstep : step st t = some st') (hinv : RecInv es c st) :
    RecInv es c st' := by
  obtain ⟨hcap, hshape, hperm⟩ := hinv
  unfold step at hstep
  cases hth : st.threads[t]? with
  | none => rw [hth] at hstep; exact Option.noConfusion hstep
  | some th =>
      rw [hth] at hstep
      dsimp only at hstep
      obtain ⟨hlt, hgetEq⟩ := List.getElem?_eq_some.mp hth
      have hmem : th ∈ st.threads := by
        rw [← hgetEq]; exact List.getElem_mem hlt
      obtain ⟨e, hsuf⟩ := hshape th hmem
      have hshape' : ∀ (p : List PyAction), p <:+ recordProg e →
          ∀ th'' ∈ st.threads.set t { th with prog := p },
            ∃ e', th''.prog <:+ recordProg e' := by
        intro p hp th'' h''
        rcases List.mem_or_eq_of_mem_set h'' with h'' | rfl
        · exact hshape th'' h''
        · exact ⟨e, hp⟩
      rcases suffix_recordProg_cases hsuf with hp | hp | hp | hp | hp
      · -- next action: acquire
        rw [hp] at hstep
        dsimp only [recordProg] at hstep
        cases hlo : st.lockOwner with
        | some u =>
            rw [hlo] at hstep
            exact Option.noConfusion hstep
        | none =>
            rw [hlo] at hstep
            dsimp only at hstep
            simp only [Option.some.injEq] at hstep
            subst hstep
            refine ⟨hcap, hshape' _ ⟨[.acquire], rfl⟩, ?_⟩
            have heq : notYetAppended (PyThread.prog
                { th with prog := [.appendE e, .pruneL, .release] }) =
                notYetAppended th.prog := by
              rw [hp]; rfl
            have hpend := pending_set_congr hth heq
            simpa [hpend] using hperm
      · -- next action: append
        rw [hp] at hstep
        dsimp only at hstep
        simp only [Option.some.injEq] at hstep
        subst hstep
        refine ⟨hcap, hshape' _ ⟨[.acquire, .appendE e], rfl⟩, ?_⟩
        have hold : notYetAppended th.prog = some e := by
          rw [hp]; rfl
        have hnew : notYetAppended (PyThread.prog
            { th with prog := [.pruneL, .release] }) = none := rfl
        have hpend := pending_set_perm_remove hth hold hnew
        have hmid : (st.entries ++ (e ::
            pending (st.threads.set t { th with prog := [.pruneL, .release] }))).Perm
              (st.entries ++ pending st.threads) :=
          List.Perm.append_left _ hpend
        simpa using hmid.trans hperm
      · -- next action: prune (a no-op: the list always fits the capacity)
        rw [hp] at hstep
        dsimp only at hstep
        simp only [Option.some.injEq] at hstep
        have hlen : st.entries.length ≤ st.cap := by
          have := hperm.length_eq
          simp only [List.length_append] at this
          omega
        rw [if_neg (by omega)] at hstep
        subst hstep
        refine ⟨hcap, hshape' _ ⟨[.acquire, .appendE e, .pruneL], rfl⟩, ?_⟩
        have heq : notYetAppended (PyThread.prog
            { th with prog := [.release] }) = notYetAppended th.prog := by
          rw [hp]; rfl
        have hpend := pending_set_congr hth heq
        simpa [hpend] using hperm
      · -- next action: release
        rw [hp] at hstep
        dsimp only at hstep
        simp only [Option.some.injEq] at hstep
        subst hstep
        refine ⟨hcap, hshape' _ List.nil_suffix, ?_⟩
        have heq : notYetAppended (PyThread.prog
            { th with prog := [] }) = notYetAppended th.prog := by
          rw [hp]; rfl
        have hpend := pending_set_congr hth heq
        simpa [hpend] using hperm
      · -- thread finished: no step possible
        rw [hp] at hstep
        exact Option.noConfusion hstep

theorem exec_preserves_RecInv {es : List ProfileEntry} {c : Nat}
    (hK : es.length ≤ c) (sched : List Nat) :
    ∀ {st st' : ConcState}, exec sched st = some st' →
      RecInv es c st → RecInv es c st' := by
  induction sched with
  | nil =>
      intro st st' h hinv
      simp only [exec, Option.some.injEq] at h
      rwa [← h]
  | cons t rest ih =>
      intro st st' h hinv
      unfold exec at h
      cases hs : step st t with
      | none => rw [hs] at h; simp at h
      | some st1 =>
          rw [hs] at h
          exact ih h (step_preserves_RecInv hK hs hinv)

theorem RecInv_init (es : List ProfileEntry) (c : Nat) :
    RecInv es c (initRecordState es c) := by
  refine ⟨rfl, ?_, ?_⟩
  · intro th hth
    simp only [initRecordState, recordThreads, List.mem_map] at hth
    obtain ⟨e, -, rfl⟩ := hth
    exact ⟨e, List.suffix_refl _⟩
  · have hpend : pending (recordThreads es) = es := by
      unfold pending recordThreads
      rw [List.filterMap_map]
      have hcomp : ((fun th => notYetAppended th.prog) ∘
          fun e => (⟨recordProg e, none⟩ : PyThread)) =
            (some : ProfileEntry → Option ProfileEntry) := by
        funext e; rfl
      rw [hcomp, List.filterMap_some]
    show (ConcState.entries (initRecordState es c) ++
      pending (ConcState.threads (initRecordState es c))).Perm es
    simp only [initRecordState]
    rw [hpend]
    simp

/-- Claim C5 as amended: `add_profile_data`, `get_profile_data` and
`clear_data` run their store accesses inside `with self._lock`, but
`configure` (with its immediate prune) runs without acquiring the lock, so
the five operations are NOT all mutually exclusive (see the counterexample
above).  The claimed consequence for records still holds: for every
interleaved execution of one lock-guarded `add_profile_data` call per entry
of `es` against an empty store of capacity `≥ K = es.length`, once all
threads have finished the store holds exactly the `K` recorded entries —
a permutation of `es`: no duplicates, no omissions. -/
theorem C5_concurrent_record_safety (es : List ProfileEntry) (c : Nat)
    (hcap : es.length ≤ c) (sched : List Nat) (stF : ConcState)
    (hexec : exec sched (initRecordState es c) = some stF)
    (hdone : ∀ th ∈ stF.threads, th.prog = []) :
    stF.entries.Perm es ∧ stF.entries.length = es.length := by
  have hinv := exec_preserves_RecInv hcap sched hexec (RecInv_init es c)
  obtain ⟨-, -, hperm⟩ := hinv
  have hpend : pending stF.threads = [] := by
    unfold pending
    refine List.filterMap_eq_nil_iff.mpr ?_
    intro th hth
    rw [hdone th hth]
    rfl
  rw [hpend, List.append_nil] at hperm
  exact ⟨hperm, hperm.length_eq⟩

theorem C5_concurrent_record_safety_witness :
    exec [0, 0, 0, 0, 1, 1, 1, 1] (initRecordState [eA, eB] 2) =
      some ⟨[eA, eB], 2, none, [⟨[], none⟩, ⟨[], none⟩]⟩ ∧
    ([eA, eB] : List ProfileEntry).Perm [eA, eB] ∧
    ([eA, eB] : List ProfileEntry).length = [eA, eB].length := by
  have hexec : exec [0, 0, 0, 0, 1, 1, 1, 1] (initRecordState [eA, eB] 2) =
      some ⟨[eA, eB], 2, none, [⟨[], none⟩, ⟨[], none⟩]⟩ := by decide
  have h := C5_concurrent_record_safety [eA, eB] 2 (by decide)
    [0, 0, 0, 0, 1, 1, 1, 1] ⟨[eA, eB], 2, none, [⟨[], none⟩, ⟨[], none⟩]⟩
    hexec (by decide)
  exact ⟨hexec, h.1, h.2⟩
